import Mathlib

/-!
Verification development for the volatility-surface dashboard
(`amplify-vite-react-template`).

The development shallowly embeds the two pieces of substantive logic:

* `createSurfaceMatrix` from `src/types/validation/optionsValidation.ts`
  (matrix builder), together with its local constants `validOptions`,
  `strikes`, `expirations`, `ivs` (here `validOptions`, `surfaceStrikes`,
  `surfaceExpirations`, `surfaceIvs`);
* the `sortedData` memo and `getIVColor` from
  `src/components/VolatilitySurface.tsx` (sort/color engine).

Modelling conventions, used throughout:

* JS numbers are modelled as `ℚ`.  The source only ever compares, subtracts
  and copies them, and the inputs it handles are decimal literals from a
  JSON API, so `NaN`/`Infinity`/rounding play no role; JS truthiness of a
  number (`x` is truthy iff `x ≠ 0`, with `NaN` having no `ℚ` counterpart)
  is modelled as `x ≠ 0`, and truthiness of a string as `s ≠ ""`.
* JS `Array.prototype.sort(cmp)` is stable and, per ECMA-262, a comparator
  result of `NaN` is treated as `0` (the pair compares as equal).  For a
  consistent comparator every stable sort algorithm produces the same
  output, so the sort is modelled by the stable `List.insertionSort` over
  the reflexive relation `cmp a b ≤ 0`; a numeric comparator `(a, b) => ka - kb`
  therefore becomes the relation `ka ≤ kb`, and a comparator evaluating to
  `NaN` becomes a relation that holds in both directions.
* JS default (comparator-less) string sort compares strings as sequences of
  UTF-16 code units; this is `lexLe` below, which coincides with it on the
  basic-plane strings this program handles.
* `new Date(s).getTime()` is modelled for the date-only ISO format
  `YYYY-MM-DD` interpreted as UTC, the format the upstream API supplies in
  `expiration_date`; every other string is modelled as an invalid date
  (`getTime()` is `NaN`, i.e. `none` here), collapsing the
  engine-dependent legacy fallback parsing of non-ISO strings.
-/

set_option maxRecDepth 8000

/-- Option contract side (`OptionType` in `src/types/domain/option.ts`). -/
inductive OptionType where
  | call
  | put
deriving DecidableEq, Repr

/-- The string the contract side interpolates into the
`No valid ${type} options found` error message. -/
def OptionType.str : OptionType → String
  | .call => "call"
  | .put => "put"

/-- `OptionDetails` from `src/types/domain/option.ts`, restricted to the
fields the matrix builder reads.  The fields `exercise_style`,
`shares_per_contract` and `ticker` are never read by the embedded code and
are omitted. -/
structure OptionDetails where
  contract_type : OptionType
  expiration_date : String
  strike_price : ℚ
deriving DecidableEq, Repr

/-- `UnderlyingAsset` from `src/types/domain/option.ts`, restricted to the
`price` field, the only one the matrix builder reads. -/
structure UnderlyingAsset where
  price : ℚ
deriving DecidableEq, Repr

/-- `OptionSnapshot` from `src/types/domain/option.ts`, restricted to the
fields the matrix builder reads.  `implied_volatility` is optional in the
source (`implied_volatility?: number`), hence `Option ℚ`;
`underlying_asset` is a required field. -/
structure OptionSnapshot where
  details : OptionDetails
  implied_volatility : Option ℚ
  underlying_asset : UnderlyingAsset
deriving DecidableEq, Repr

/-- `SurfaceMatrix` from `src/types/domain/option.ts`. -/
structure SurfaceMatrix where
  strikes : List ℚ
  expirations : List String
  ivs : List (List ℚ)
  underlyingPrice : ℚ
deriving DecidableEq, Repr

/-- The dimension invariants of a built surface matrix: one `ivs` row per
strike, one entry per expiration in every row. -/
def SurfaceMatrix.WellFormed (m : SurfaceMatrix) : Prop :=
  m.ivs.length = m.strikes.length ∧ ∀ row ∈ m.ivs, row.length = m.expirations.length

instance (m : SurfaceMatrix) : Decidable m.WellFormed :=
  inferInstanceAs (Decidable (_ ∧ _))

/-- Lexicographic comparison of character lists: this is the order JS `<`
and the default (comparator-less) `Array.prototype.sort` impose on strings,
comparing code units left to right (identical to code-point order on the
basic multilingual plane, which covers every string this program sorts). -/
def lexLe : List Char → List Char → Bool
  | [], _ => true
  | _ :: _, [] => false
  | a :: as, b :: bs => if a < b then true else if b < a then false else lexLe as bs

/-- The JS default string sort order, as a relation on `String`. -/
def strLe (a b : String) : Prop := lexLe a.data b.data = true

instance : DecidableRel strLe :=
  fun a b => inferInstanceAs (Decidable (lexLe a.data b.data = true))

theorem lexLe_total : ∀ as bs, lexLe as bs = true ∨ lexLe bs as = true := by
  intro as
  induction as with
  | nil => intro bs; left; rfl
  | cons a as ih =>
    intro bs
    cases bs with
    | nil => right; rfl
    | cons b bs =>
      rcases lt_trichotomy a b with h | h | h
      · left; simp [lexLe, h]
      · subst h
        have := ih bs
        simpa [lexLe, lt_irrefl] using this
      · right; simp [lexLe, h]

theorem lexLe_trans :
    ∀ as bs cs, lexLe as bs = true → lexLe bs cs = true → lexLe as cs = true := by
  intro as
  induction as with
  | nil => intro bs cs _ _; rfl
  | cons a as ih =>
    intro bs cs h1 h2
    cases bs with
    | nil => simp [lexLe] at h1
    | cons b bs =>
      cases cs with
      | nil => simp [lexLe] at h2
      | cons c cs =>
        simp only [lexLe] at h1 h2 ⊢
        by_cases hab : a < b
        · by_cases hbc : b < c
          · simp [lt_trans hab hbc]
          · by_cases hcb : c < b
            · simp [hbc, hcb] at h2
            · have hbc' : b = c := le_antisymm (not_lt.mp hcb) (not_lt.mp hbc)
              subst hbc'
              simp [hab]
        · by_cases hba : b < a
          · simp [hab, hba] at h1
          · have hab' : a = b := le_antisymm (not_lt.mp hba) (not_lt.mp hab)
            subst hab'
            simp only [hab, lt_irrefl, if_false, if_neg] at h1 ⊢
            by_cases hac : a < c
            · simp [hac]
            · by_cases hca : c < a
              · simp [hac, hca] at h2
              · have hac' : a = c := le_antisymm (not_lt.mp hca) (not_lt.mp hac)
                subst hac'
                simp only [lt_irrefl, if_false] at h1 h2 ⊢
                exact ih _ _ h1 h2

instance : IsTotal String strLe := ⟨fun a b => lexLe_total a.data b.data⟩

instance : IsTrans String strLe := ⟨fun _ _ _ => lexLe_trans _ _ _⟩

/-- First-occurrence deduplication with an explicit `seen` accumulator:
`firstDedupAux seen l` drops the elements of `l` already in `seen` and every
repeat of an element of `l`, keeping first occurrences in order. -/
def firstDedupAux [DecidableEq α] : List α → List α → List α
  | _, [] => []
  | seen, a :: as =>
    if a ∈ seen then firstDedupAux seen as else a :: firstDedupAux (a :: seen) as

/-- `[...new Set(l)]` in JS: deduplication keeping the first occurrence of
each element, in encounter order. -/
def firstDedup [DecidableEq α] (l : List α) : List α := firstDedupAux [] l

theorem mem_firstDedupAux [DecidableEq α] (x : α) :
    ∀ (l seen : List α), x ∈ firstDedupAux seen l ↔ x ∈ l ∧ x ∉ seen := by
  intro l
  induction l with
  | nil => intro seen; simp [firstDedupAux]
  | cons a as ih =>
    intro seen
    by_cases h : a ∈ seen
    · have e : firstDedupAux seen (a :: as) = firstDedupAux seen as := by
        simp [firstDedupAux, h]
      rw [e, ih]
      constructor
      · rintro ⟨hx, hn⟩
        exact ⟨List.mem_cons_of_mem _ hx, hn⟩
      · rintro ⟨hx, hn⟩
        rcases List.mem_cons.mp hx with rfl | hx
        · exact absurd h hn
        · exact ⟨hx, hn⟩
    · have e : firstDedupAux seen (a :: as) = a :: firstDedupAux (a :: seen) as := by
        simp [firstDedupAux, h]
      rw [e]
      constructor
      · intro hx
        rcases List.mem_cons.mp hx with rfl | hx
        · exact ⟨List.mem_cons_self _ _, h⟩
        · rcases (ih (a :: seen)).mp hx with ⟨h1, h2⟩
          refine ⟨List.mem_cons_of_mem _ h1, fun hc => h2 (List.mem_cons_of_mem _ hc)⟩
      · rintro ⟨hx, hn⟩
        rcases List.mem_cons.mp hx with rfl | hx
        · exact List.mem_cons_self _ _
        · by_cases hxa : x = a
          · subst hxa; exact List.mem_cons_self _ _
          · refine List.mem_cons_of_mem _ ((ih (a :: seen)).mpr ⟨hx, fun hc => ?_⟩)
            rcases List.mem_cons.mp hc with hc | hc
            · exact hxa hc
            · exact hn hc

theorem mem_firstDedup [DecidableEq α] (x : α) (l : List α) :
    x ∈ firstDedup l ↔ x ∈ l := by
  simp [firstDedup, mem_firstDedupAux]

theorem nodup_firstDedupAux [DecidableEq α] :
    ∀ (l seen : List α), (firstDedupAux seen l).Nodup := by
  intro l
  induction l with
  | nil => intro seen; simp [firstDedupAux]
  | cons a as ih =>
    intro seen
    by_cases h : a ∈ seen
    · simpa [firstDedupAux, if_pos h] using ih seen
    · simp only [firstDedupAux, if_neg h]
      refine List.nodup_cons.mpr ⟨?_, ih (a :: seen)⟩
      intro hc
      exact ((mem_firstDedupAux a as (a :: seen)).mp hc).2 (List.mem_cons_self a seen)

theorem nodup_firstDedup [DecidableEq α] (l : List α) : (firstDedup l).Nodup :=
  nodup_firstDedupAux l []

instance [DecidableEq ε] [DecidableEq α] : DecidableEq (Except ε α)
  | .error a, .error b =>
    if h : a = b then .isTrue (by rw [h]) else .isFalse (fun hc => h (by injection hc))
  | .error _, .ok _ => .isFalse (fun hc => by injection hc)
  | .ok _, .error _ => .isFalse (fun hc => by injection hc)
  | .ok a, .ok b =>
    if h : a = b then .isTrue (by rw [h]) else .isFalse (fun hc => h (by injection hc))

/-! ## Matrix builder (`createSurfaceMatrix`, `optionsValidation.ts` lines 108-154) -/

/-- The filter predicate of `createSurfaceMatrix` (lines 114-118):
`option.details.contract_type === type && option.details.strike_price &&
option.details.expiration_date`.  The last two conjuncts are JS truthiness
tests, so they only exclude a zero strike and an empty expiration string. -/
def isValidOption (t : OptionType) (o : OptionSnapshot) : Bool :=
  decide (o.details.contract_type = t) &&
    decide (o.details.strike_price ≠ 0) &&
    decide (o.details.expiration_date ≠ "")

/-- The local `validOptions` of `createSurfaceMatrix` (line 114). -/
def validOptions (t : OptionType) (data : List OptionSnapshot) : List OptionSnapshot :=
  data.filter (isValidOption t)

/-- The predicate of `validOptions.find(opt => opt.underlying_asset?.price)`
(line 140): the price is truthy. -/
def hasUnderlyingPrice (o : OptionSnapshot) : Bool :=
  decide (o.underlying_asset.price ≠ 0)

/-- The predicate of the cell lookup
`validOptions.find(opt => opt.details.strike_price === strike &&
opt.details.expiration_date === expiry)` (lines 131-134). -/
def matchesCell (strike : ℚ) (expiry : String) (o : OptionSnapshot) : Bool :=
  decide (o.details.strike_price = strike) && decide (o.details.expiration_date = expiry)

/-- The local `strikes` of `createSurfaceMatrix` (line 125):
`[...new Set(validOptions.map(opt => opt.details.strike_price))].sort((a, b) => a - b)`,
a numeric-ascending sort of the deduplicated strikes. -/
def surfaceStrikes (t : OptionType) (data : List OptionSnapshot) : List ℚ :=
  List.insertionSort (· ≤ ·)
    (firstDedup ((validOptions t data).map (fun o => o.details.strike_price)))

/-- The local `expirations` of `createSurfaceMatrix` (line 126):
`[...new Set(validOptions.map(opt => opt.details.expiration_date))].sort()`.
The comparator-less `.sort()` orders the date strings lexicographically
(`strLe`), not by date value. -/
def surfaceExpirations (t : OptionType) (data : List OptionSnapshot) : List String :=
  List.insertionSort strLe
    (firstDedup ((validOptions t data).map (fun o => o.details.expiration_date)))

/-- The local `ivs` of `createSurfaceMatrix` (lines 129-137): for every
(strike, expiry) cell, the implied volatility of the FIRST record of
`validOptions` matching the cell (`Array.prototype.find`), `0` when that
record has no `implied_volatility` (`?? 0`) and `0` when no record matches. -/
def surfaceIvs (t : OptionType) (data : List OptionSnapshot) : List (List ℚ) :=
  (surfaceStrikes t data).map (fun strike =>
    (surfaceExpirations t data).map (fun expiry =>
      match (validOptions t data).find? (matchesCell strike expiry) with
      | some o => o.implied_volatility.getD 0
      | none => 0))

/-- Error message of line 121: `No valid ${type} options found`. -/
def noOptionsError (t : OptionType) : String :=
  "No valid " ++ t.str ++ " options found"

/-- Error message of line 142: `No valid underlying price found`. -/
def noPriceError : String := "No valid underlying price found"

/-- `createSurfaceMatrix` from `optionsValidation.ts` (lines 108-154).
`Either<Error, SurfaceMatrix>` is modelled as `Except String SurfaceMatrix`
with the error message as the error value.  The `try/catch` wrapper is not
modelled: none of the embedded operations can throw. -/
def createSurfaceMatrix (t : OptionType) (data : List OptionSnapshot) :
    Except String SurfaceMatrix :=
  if (validOptions t data).length = 0 then
    .error (noOptionsError t)
  else
    match (validOptions t data).find? hasUnderlyingPrice with
    | some o =>
        .ok { strikes := surfaceStrikes t data
              expirations := surfaceExpirations t data
              ivs := surfaceIvs t data
              underlyingPrice := o.underlying_asset.price }
    | none => .error noPriceError

/-! ## Sort/color engine (`VolatilitySurface.tsx`) -/

/-- `SortKey` from `VolatilitySurface.tsx` (line 215). -/
inductive SortKey where
  | strikes
  | expirations
  | iv
deriving DecidableEq, Repr

/-- The `direction` field of `SortConfig` (line 226). -/
inductive SortDirection where
  | asc
  | desc
deriving DecidableEq, Repr

/-- `SortConfig` from `VolatilitySurface.tsx` (lines 224-228).  The optional
`expirationIndex?: number` is `Option Int` (`none` models `undefined`,
failing the `typeof sortConfig.expirationIndex === 'number'` guard). -/
structure SortConfig where
  key : SortKey
  direction : SortDirection
  expirationIndex : Option Int
deriving DecidableEq, Repr

/-- Digit-string parsing: `some` of the decimal value when the list is
nonempty and all characters are digits, else `none`. -/
def digitsToNat? (cs : List Char) : Option Nat :=
  if cs ≠ [] ∧ ∀ c ∈ cs, '0' ≤ c ∧ c ≤ '9' then
    some (cs.foldl (fun n c => 10 * n + (c.toNat - '0'.toNat)) 0)
  else none

/-- Splits a character list at each `'-'`, accumulator-first. -/
def splitDashAux : List Char → List Char → List (List Char)
  | acc, [] => [acc.reverse]
  | acc, c :: cs =>
    if c = '-' then acc.reverse :: splitDashAux [] cs else splitDashAux (c :: acc) cs

/-- Leap year test of the Gregorian calendar. -/
def isLeapYear (y : Nat) : Bool :=
  (decide (y % 4 = 0) && decide (y % 100 ≠ 0)) || decide (y % 400 = 0)

/-- Days in a Gregorian month (`m` between 1 and 12). -/
def daysInMonth (y m : Nat) : Nat :=
  match m with
  | 2 => if isLeapYear y then 29 else 28
  | 4 | 6 | 9 | 11 => 30
  | _ => 31

/-- Days from 1970-01-01 to the civil date `y-m-d` (proleptic Gregorian),
the standard days-from-civil computation with truncating division. -/
def daysFromCivil (y : Int) (m d : Nat) : Int :=
  let yy : Int := if m ≤ 2 then y - 1 else y
  let era : Int := (if 0 ≤ yy then yy else yy - 399).tdiv 400
  let yoe : Int := yy - era * 400
  let mp : Nat := (m + 9) % 12
  let doy : Nat := (153 * mp + 2) / 5 + d - 1
  let doe : Int := yoe * 365 + yoe.tdiv 4 - yoe.tdiv 100 + (doy : Int)
  era * 146097 + doe - 719468

/-- `new Date(s).getTime()`, modelled for the date-only ISO format
`YYYY-MM-DD` (interpreted as UTC, milliseconds since the epoch); any other
string is modelled as an invalid date (`NaN`, i.e. `none`). -/
def parseDateMs (s : String) : Option Int :=
  match splitDashAux [] s.data with
  | [ys, ms, ds] =>
    if ys.length = 4 ∧ ms.length = 2 ∧ ds.length = 2 then
      match digitsToNat? ys, digitsToNat? ms, digitsToNat? ds with
      | some y, some m, some d =>
        if 1 ≤ m ∧ m ≤ 12 ∧ 1 ≤ d ∧ d ≤ daysInMonth y m then
          some (daysFromCivil (y : Int) m d * 86400000)
        else none
      | _, _, _ => none
    else none
  | _ => none

/-- Direction-aware key comparison on `ℚ`: the normalized outcome of the JS
comparator `direction === 'asc' ? kx - ky : -(kx - ky)` being `≤ 0`. -/
def dirLe (dir : SortDirection) (x y : ℚ) : Bool :=
  match dir with
  | .asc => decide (x ≤ y)
  | .desc => decide (y ≤ x)

/-- Direction-aware key comparison on `Int` (for date values). -/
def dirLeInt (dir : SortDirection) (x y : Int) : Bool :=
  match dir with
  | .asc => decide (x ≤ y)
  | .desc => decide (y ≤ x)

/-- The strike comparator of `sortedData` (lines 490-493), as the relation
`comparator(a, b) ≤ 0` on indices: `strikes[a] - strikes[b]` for `asc`,
negated for `desc`. -/
def strikeIdxLe (m : SurfaceMatrix) (dir : SortDirection) (a b : Nat) : Prop :=
  dirLe dir (m.strikes.getD a 0) (m.strikes.getD b 0) = true

instance (m : SurfaceMatrix) (dir : SortDirection) : DecidableRel (strikeIdxLe m dir) :=
  fun a b =>
    inferInstanceAs (Decidable (dirLe dir (m.strikes.getD a 0) (m.strikes.getD b 0) = true))

/-- The expiration comparator of `sortedData` (lines 495-498), as the
relation `comparator(a, b) ≤ 0` on indices:
`new Date(expirations[a]).getTime() - new Date(expirations[b]).getTime()`.
When either date is invalid the subtraction is `NaN`, which ECMA-262
normalizes to `0`, so the pair compares as equal: the relation holds. -/
def expiryIdxLe (m : SurfaceMatrix) (dir : SortDirection) (a b : Nat) : Prop :=
  (match parseDateMs (m.expirations.getD a ""), parseDateMs (m.expirations.getD b "") with
   | some x, some y => dirLeInt dir x y
   | _, _ => true) = true

instance (m : SurfaceMatrix) (dir : SortDirection) : DecidableRel (expiryIdxLe m dir) :=
  fun a b =>
    inferInstanceAs (Decidable
      ((match parseDateMs (m.expirations.getD a ""), parseDateMs (m.expirations.getD b "") with
        | some x, some y => dirLeInt dir x y
        | _, _ => true) = true))

/-- `ivs[a][k]` for a possibly out-of-range (or negative) column index `k`:
`none` models the JS `undefined`. -/
def ivCell? (m : SurfaceMatrix) (a : Nat) (k : Int) : Option ℚ :=
  (m.ivs[a]?).bind (fun row => if 0 ≤ k then row[k.toNat]? else none)

/-- The per-column IV comparator of `sortedData` (lines 501-505), as the
relation `comparator(a, b) ≤ 0` on strike indices:
`ivs[a][expirationIndex] - ivs[b][expirationIndex]`.  When the column index
is out of range the operands are `undefined`, the subtraction is `NaN`, and
ECMA-262 normalizes the comparator result to `0`: the relation holds. -/
def ivIdxLe (m : SurfaceMatrix) (dir : SortDirection) (k : Int) (a b : Nat) : Prop :=
  (match ivCell? m a k, ivCell? m b k with
   | some x, some y => dirLe dir x y
   | _, _ => true) = true

instance (m : SurfaceMatrix) (dir : SortDirection) (k : Int) :
    DecidableRel (ivIdxLe m dir k) :=
  fun a b =>
    inferInstanceAs (Decidable
      ((match ivCell? m a k, ivCell? m b k with
        | some x, some y => dirLe dir x y
        | _, _ => true) = true))

/-- The index-sorting phase of the `sortedData` memo (lines 485-506): the
strike-index and expiration-index arrays start as `[0, ..., n-1]` and at
most one of them is sorted, following the `if / else if / else if` chain on
`sortConfig.key` (with the `typeof sortConfig.expirationIndex === 'number'`
guard on the `iv` branch).  Returns (strikeIndices, expirationIndices). -/
def sortedIndexPair (m : SurfaceMatrix) (cfg : SortConfig) : List Nat × List Nat :=
  let strikeIndices := List.range m.strikes.length
  let expirationIndices := List.range m.expirations.length
  if cfg.key = .strikes then
    (List.insertionSort (strikeIdxLe m cfg.direction) strikeIndices, expirationIndices)
  else if cfg.key = .expirations then
    (strikeIndices, List.insertionSort (expiryIdxLe m cfg.direction) expirationIndices)
  else if cfg.key = .iv then
    match cfg.expirationIndex with
    | some k =>
      (List.insertionSort (ivIdxLe m cfg.direction k) strikeIndices, expirationIndices)
    | none => (strikeIndices, expirationIndices)
  else (strikeIndices, expirationIndices)

/-- The sorted strike-index permutation of `sortedData`. -/
def sortedStrikeIndices (m : SurfaceMatrix) (cfg : SortConfig) : List Nat :=
  (sortedIndexPair m cfg).1

/-- The sorted expiration-index permutation of `sortedData`. -/
def sortedExpirationIndices (m : SurfaceMatrix) (cfg : SortConfig) : List Nat :=
  (sortedIndexPair m cfg).2

/-- The `sortedData` memo of `VolatilitySurface.tsx` (lines 479-522), as a
function of the surface matrix and the sort configuration (the `null` case
of a missing matrix is outside the embedding): reorders `strikes`,
`expirations` and rebuilds `ivs` through the two index permutations
(lines 509-514) and passes `underlyingPrice` through (line 520). -/
def sortedData (m : SurfaceMatrix) (cfg : SortConfig) : SurfaceMatrix :=
  { strikes := (sortedStrikeIndices m cfg).map (fun i => m.strikes.getD i 0)
    expirations := (sortedExpirationIndices m cfg).map (fun j => m.expirations.getD j "")
    ivs := (sortedStrikeIndices m cfg).map (fun i =>
      (sortedExpirationIndices m cfg).map (fun j => (m.ivs.getD i []).getD j 0))
    underlyingPrice := m.underlyingPrice }

/-- `getIVColor` from `VolatilitySurface.tsx` (lines 242-249).  The five
result strings are the color buckets: `"text-blue-600 font-medium"` is
strong-cold, `"text-blue-400"` mild-cold, `"text-gray-600"` neutral,
`"text-red-400"` mild-hot and `"text-red-600 font-medium"` strong-hot.
`mkRat 5 100` is the literal `0.05`. -/
def getIVColor (iv baseIV : ℚ) : String :=
  let diff := iv - baseIV
  if diff < -(mkRat 5 100) then "text-blue-600 font-medium"
  else if diff < 0 then "text-blue-400"
  else if diff > mkRat 5 100 then "text-red-600 font-medium"
  else if diff > 0 then "text-red-400"
  else "text-gray-600"

/-! ## Helper lemmas -/

theorem noOptionsError_ne_noPriceError (t : OptionType) : noOptionsError t ≠ noPriceError := by
  cases t <;> decide

/-- Success characterization of `createSurfaceMatrix`: it returns `.ok m`
exactly when the filtered set is nonempty and some filtered record has a
truthy underlying price, and then `m` is built from the sorted strikes,
the sorted expirations, the cell grid and that first record's price. -/
theorem createSurfaceMatrix_ok_iff {t : OptionType} {d : List OptionSnapshot}
    {m : SurfaceMatrix} :
    createSurfaceMatrix t d = .ok m ↔
      validOptions t d ≠ [] ∧
        ∃ o, (validOptions t d).find? hasUnderlyingPrice = some o ∧
          m = { strikes := surfaceStrikes t d
                expirations := surfaceExpirations t d
                ivs := surfaceIvs t d
                underlyingPrice := o.underlying_asset.price } := by
  unfold createSurfaceMatrix
  by_cases h0 : (validOptions t d).length = 0
  · have he : validOptions t d = [] := List.length_eq_zero.mp h0
    simp [h0, he]
  · have hne : validOptions t d ≠ [] := fun hc => h0 (by simp [hc])
    rw [if_neg h0]
    cases hfind : (validOptions t d).find? hasUnderlyingPrice with
    | none => simp [hne]
    | some o =>
      simp only [Except.ok.injEq, hne, ne_eq, not_false_eq_true, true_and,
        Option.some.injEq]
      constructor
      · intro h; exact ⟨o, rfl, h.symm⟩
      · rintro ⟨o', ho', hm⟩; subst ho'; exact hm.symm

/-- `getD` through `map`, at an in-range index. -/
theorem getD_map {α β : Type _} (l : List α) (f : α → β) (d : β) (e : α)
    {i : ℕ} (h : i < l.length) :
    (l.map f).getD i d = f (l.getD i e) := by
  rw [List.getD_eq_getElem (l.map f) d (by simpa using h), List.getElem_map,
    List.getD_eq_getElem l e h]

/-- Mapping `getD` over the full index range reproduces the list. -/
theorem map_getD_range {α : Type _} (l : List α) (d : α) :
    (List.range l.length).map (fun i => l.getD i d) = l := by
  apply List.ext_getElem
  · simp
  · intro n h1 h2
    rw [List.getElem_map, List.getElem_range, List.getD_eq_getElem l d h2]

/-- An insertion sort by a relation that holds between all members of the
list leaves the list unchanged (every comparison reports "equal or before",
and the sort is stable). -/
theorem insertionSort_eq_self {α : Type _} (r : α → α → Prop) [DecidableRel r] :
    ∀ l : List α, (∀ a ∈ l, ∀ b ∈ l, r a b) → List.insertionSort r l = l := by
  intro l
  induction l with
  | nil => intro _; rfl
  | cons x xs ih =>
    intro h
    have hxs : List.insertionSort r xs = xs :=
      ih (fun a ha b hb =>
        h a (List.mem_cons_of_mem _ ha) b (List.mem_cons_of_mem _ hb))
    show List.orderedInsert r x (List.insertionSort r xs) = x :: xs
    rw [hxs]
    cases xs with
    | nil => rfl
    | cons y ys =>
      show (if r x y then x :: y :: ys else y :: List.orderedInsert r x ys) = _
      rw [if_pos (h x (List.mem_cons_self _ _) y
        (List.mem_cons_of_mem _ (List.mem_cons_self _ _)))]

/-- The strike-index list of `sortedData` is a permutation of the identity
index range, whatever the sort configuration. -/
theorem sortedStrikeIndices_perm (m : SurfaceMatrix) (cfg : SortConfig) :
    (sortedStrikeIndices m cfg).Perm (List.range m.strikes.length) := by
  rcases cfg with ⟨key, dir, ei⟩
  cases key
  · simpa [sortedStrikeIndices, sortedIndexPair] using
      List.perm_insertionSort (strikeIdxLe m dir) (List.range m.strikes.length)
  · simp [sortedStrikeIndices, sortedIndexPair]
  · cases ei with
    | none => simp [sortedStrikeIndices, sortedIndexPair]
    | some k =>
      simpa [sortedStrikeIndices, sortedIndexPair] using
        List.perm_insertionSort (ivIdxLe m dir k) (List.range m.strikes.length)

/-- The expiration-index list of `sortedData` is a permutation of the
identity index range, whatever the sort configuration. -/
theorem sortedExpirationIndices_perm (m : SurfaceMatrix) (cfg : SortConfig) :
    (sortedExpirationIndices m cfg).Perm (List.range m.expirations.length) := by
  rcases cfg with ⟨key, dir, ei⟩
  cases key
  · simp [sortedExpirationIndices, sortedIndexPair]
  · simpa [sortedExpirationIndices, sortedIndexPair] using
      List.perm_insertionSort (expiryIdxLe m dir) (List.range m.expirations.length)
  · cases ei with
    | none => simp [sortedExpirationIndices, sortedIndexPair]
    | some k => simp [sortedExpirationIndices, sortedIndexPair]

/-- Rebuilding the grid cell by cell over the full index ranges reproduces
`ivs`, given the dimension invariants. -/
theorem ivs_reconstruct (m : SurfaceMatrix) (hWF : m.WellFormed) :
    (List.range m.strikes.length).map (fun i =>
      (List.range m.expirations.length).map (fun j => (m.ivs.getD i []).getD j 0)) =
      m.ivs := by
  apply List.ext_getElem
  · simp [hWF.1]
  · intro n h1 h2
    rw [List.getElem_map, List.getElem_range]
    rw [List.getD_eq_getElem m.ivs [] h2]
    have hlen : (m.ivs[n]).length = m.expirations.length :=
      hWF.2 _ (List.getElem_mem h2)
    calc (List.range m.expirations.length).map (fun j => (m.ivs[n]).getD j 0)
        = (List.range (m.ivs[n]).length).map (fun j => (m.ivs[n]).getD j 0) := by
          rw [hlen]
      _ = m.ivs[n] := map_getD_range _ _

/-- When both index lists are the identity ranges, `sortedData` rebuilds the
input matrix exactly (given the dimension invariants). -/
theorem sortedData_eq_self_of_identity (m : SurfaceMatrix) (cfg : SortConfig)
    (hWF : m.WellFormed)
    (hs : sortedStrikeIndices m cfg = List.range m.strikes.length)
    (he : sortedExpirationIndices m cfg = List.range m.expirations.length) :
    sortedData m cfg = m := by
  rcases m with ⟨s, e, iv, p⟩
  show SurfaceMatrix.mk _ _ _ _ = _
  rw [SurfaceMatrix.mk.injEq]
  refine ⟨?_, ?_, ?_, rfl⟩
  · rw [hs]; exact map_getD_range s 0
  · rw [he]; exact map_getD_range e ""
  · rw [hs, he]
    exact ivs_reconstruct ⟨s, e, iv, p⟩ hWF

/-- The strikes of a built matrix are sorted strictly ascending by value. -/
theorem surfaceStrikes_sorted_lt (t : OptionType) (d : List OptionSnapshot) :
    List.Sorted (· < ·) (surfaceStrikes t d) := by
  have hs : List.Sorted (· ≤ ·) (surfaceStrikes t d) :=
    List.sorted_insertionSort (· ≤ ·) _
  have hn : (surfaceStrikes t d).Nodup := by
    unfold surfaceStrikes
    exact (List.perm_insertionSort (· ≤ ·) _).symm.nodup (nodup_firstDedup _)
  exact hs.lt_of_le hn

/-- The expirations of a built matrix are strictly ascending in the
lexicographic string order `strLe` (sorted and duplicate-free). -/
theorem surfaceExpirations_pairwise (t : OptionType) (d : List OptionSnapshot) :
    List.Pairwise (fun a b => strLe a b ∧ a ≠ b) (surfaceExpirations t d) := by
  have hs : List.Pairwise strLe (surfaceExpirations t d) :=
    List.sorted_insertionSort strLe _
  have hn : (surfaceExpirations t d).Nodup := by
    unfold surfaceExpirations
    exact (List.perm_insertionSort strLe _).symm.nodup (nodup_firstDedup _)
  exact hs.and hn

/-- The strikes of a built matrix are exactly the strike prices occurring in
the filtered records. -/
theorem mem_surfaceStrikes (t : OptionType) (d : List OptionSnapshot) (x : ℚ) :
    x ∈ surfaceStrikes t d ↔ ∃ o ∈ validOptions t d, o.details.strike_price = x := by
  unfold surfaceStrikes
  rw [(List.perm_insertionSort (· ≤ ·) _).mem_iff, mem_firstDedup, List.mem_map]

/-- The expirations of a built matrix are exactly the expiration dates
occurring in the filtered records. -/
theorem mem_surfaceExpirations (t : OptionType) (d : List OptionSnapshot) (s : String) :
    s ∈ surfaceExpirations t d ↔ ∃ o ∈ validOptions t d, o.details.expiration_date = s := by
  unfold surfaceExpirations
  rw [(List.perm_insertionSort strLe _).mem_iff, mem_firstDedup, List.mem_map]

/-- The grid of a built matrix has one row per strike and one entry per
expiration in every row. -/
theorem surfaceIvs_dims (t : OptionType) (d : List OptionSnapshot) :
    (surfaceIvs t d).length = (surfaceStrikes t d).length ∧
      ∀ row ∈ surfaceIvs t d, row.length = (surfaceExpirations t d).length := by
  constructor
  · simp [surfaceIvs]
  · intro row hrow
    unfold surfaceIvs at hrow
    rcases List.mem_map.mp hrow with ⟨strike, -, rfl⟩
    simp

/-! ## Claims -/

/-- Convenience constructor for concrete snapshots used in witnesses and
counterexamples. -/
def mkSnapshot (t : OptionType) (strike : ℚ) (expiry : String) (iv : Option ℚ)
    (price : ℚ) : OptionSnapshot :=
  { details := { contract_type := t, expiration_date := expiry, strike_price := strike }
    implied_volatility := iv
    underlying_asset := { price := price } }

/-- Records whose expirations "2024-2-1" and "2024-10-1" expose the string
sort of the expiration axis. -/
def c1Records : List OptionSnapshot :=
  [mkSnapshot .call 100 "2024-2-1" (some 1) 100,
   mkSnapshot .call 100 "2024-10-1" (some 2) 100]

/-- The matrix the builder actually produces for `c1Records`. -/
def c1Matrix : SurfaceMatrix :=
  { strikes := [100]
    expirations := ["2024-10-1", "2024-2-1"]
    ivs := [[2, 1]]
    underlyingPrice := 100 }

/-- C1, counterexample.  On records carrying expirations "2024-2-1" and
"2024-10-1", `createSurfaceMatrix` succeeds with the expirations in
lexicographic string order, so "2024-10-1" comes FIRST — the claim requires
"2024-2-1" to appear before "2024-10-1" (chronological order). -/
theorem c1_counterexample :
    createSurfaceMatrix OptionType.call c1Records = Except.ok c1Matrix ∧
      c1Matrix.expirations.indexOf "2024-10-1" < c1Matrix.expirations.indexOf "2024-2-1" := by
  exact ⟨by decide, by decide⟩

/-- C1, amended.  For every input on which `createSurfaceMatrix` succeeds,
the expirations of the returned matrix are the unique expiration dates of
the filtered records sorted strictly ascending by their STRING value
(lexicographically, the order of the comparator-less JS `sort()`), which
coincides with chronological order only for equal-width date strings such
as the zero-padded ISO dates the upstream API supplies; for records
containing "2024-2-1" and "2024-10-1", "2024-10-1" appears first. -/
theorem c1_expirations_lex_sorted (t : OptionType) (d : List OptionSnapshot)
    (m : SurfaceMatrix) (h : createSurfaceMatrix t d = Except.ok m) :
    List.Pairwise (fun a b => strLe a b ∧ a ≠ b) m.expirations ∧
      ∀ s, s ∈ m.expirations ↔ ∃ o ∈ validOptions t d, o.details.expiration_date = s := by
  obtain ⟨-, o, -, rfl⟩ := createSurfaceMatrix_ok_iff.mp h
  exact ⟨surfaceExpirations_pairwise t d, fun s => mem_surfaceExpirations t d s⟩

/-- C1, witness: the amended theorem applied to `c1Records`. -/
theorem c1_witness :
    List.Pairwise (fun a b => strLe a b ∧ a ≠ b) c1Matrix.expirations ∧
      ∀ s, s ∈ c1Matrix.expirations ↔
        ∃ o ∈ validOptions OptionType.call c1Records, o.details.expiration_date = s :=
  c1_expirations_lex_sorted OptionType.call c1Records c1Matrix (by decide)

/-- Two records in the same (strike, expiration) cell, the earlier with IV
0.30, the later with IV 0.50. -/
def c2Records : List OptionSnapshot :=
  [mkSnapshot .call 100 "2024-06-21" (some (mkRat 30 100)) 100,
   mkSnapshot .call 100 "2024-06-21" (some (mkRat 50 100)) 100]

/-- The matrix the builder actually produces for `c2Records`: the cell holds
the FIRST record's IV. -/
def c2Matrix : SurfaceMatrix :=
  { strikes := [100]
    expirations := ["2024-06-21"]
    ivs := [[mkRat 30 100]]
    underlyingPrice := 100 }

/-- C2, counterexample.  When two records share a (strike, expiration) cell,
the cell holds the implied volatility of the FIRST such record
(`Array.prototype.find`), 0.30 here — the claim says the latest record
(0.50) wins. -/
theorem c2_counterexample :
    createSurfaceMatrix OptionType.call c2Records = Except.ok c2Matrix ∧
      (c2Matrix.ivs.getD 0 []).getD 0 0 = mkRat 30 100 ∧
      mkRat 30 100 ≠ mkRat 50 100 := by
  exact ⟨by decide, by decide, by decide⟩

/-- C2, amended.  On duplicate (strike, expiration) keys the EARLIEST
filtered record in input order wins: every cell of a successfully built
matrix holds the IV of the first filtered record matching its strike and
expiration (`0` when that record has no IV or when no record matches). -/
theorem c2_cell_first_match (t : OptionType) (d : List OptionSnapshot)
    (m : SurfaceMatrix) (h : createSurfaceMatrix t d = Except.ok m)
    (i j : ℕ) (hi : i < m.strikes.length) (hj : j < m.expirations.length) :
    (m.ivs.getD i []).getD j 0 =
      (((validOptions t d).find?
          (matchesCell (m.strikes.getD i 0) (m.expirations.getD j ""))).bind
        (fun o => o.implied_volatility)).getD 0 := by
  obtain ⟨-, o, -, rfl⟩ := createSurfaceMatrix_ok_iff.mp h
  have hi' : i < (surfaceStrikes t d).length := hi
  have hj' : j < (surfaceExpirations t d).length := hj
  show ((surfaceIvs t d).getD i []).getD j 0 = _
  unfold surfaceIvs
  rw [getD_map (surfaceStrikes t d) _ [] 0 hi',
    getD_map (surfaceExpirations t d) _ 0 "" hj']
  cases (validOptions t d).find?
      (matchesCell ((surfaceStrikes t d).getD i 0) ((surfaceExpirations t d).getD j "")) <;>
    rfl

/-- C2, witness: the amended theorem applied to `c2Records` at cell (0, 0). -/
theorem c2_witness :
    (c2Matrix.ivs.getD 0 []).getD 0 0 =
      (((validOptions OptionType.call c2Records).find?
          (matchesCell (c2Matrix.strikes.getD 0 0) (c2Matrix.expirations.getD 0 ""))).bind
        (fun o => o.implied_volatility)).getD 0 :=
  c2_cell_first_match OptionType.call c2Records c2Matrix (by decide) 0 0
    (by decide) (by decide)

/-- C3.  For every input on which `createSurfaceMatrix` succeeds, the strikes
are strictly increasing by value, the expirations are strictly increasing
(in the string order the builder sorts by) with no duplicates, and the grid
has exactly one row per strike, each of exactly one entry per expiration. -/
theorem c3_matrix_invariants (t : OptionType) (d : List OptionSnapshot)
    (m : SurfaceMatrix) (h : createSurfaceMatrix t d = Except.ok m) :
    List.Sorted (· < ·) m.strikes ∧
      List.Pairwise (fun a b => strLe a b ∧ a ≠ b) m.expirations ∧
      m.WellFormed := by
  obtain ⟨-, o, -, rfl⟩ := createSurfaceMatrix_ok_iff.mp h
  exact ⟨surfaceStrikes_sorted_lt t d, surfaceExpirations_pairwise t d,
    (surfaceIvs_dims t d).1, (surfaceIvs_dims t d).2⟩

/-- C3, witness: the theorem applied to a concrete two-strike build. -/
theorem c3_witness :
    List.Sorted (· < ·) c2Matrix.strikes ∧
      List.Pairwise (fun a b => strLe a b ∧ a ≠ b) c2Matrix.expirations ∧
      c2Matrix.WellFormed :=
  c3_matrix_invariants OptionType.call c2Records c2Matrix (by decide)

/-- C4.  `createSurfaceMatrix` fails exactly when the filter keeps no record
or no filtered record carries a truthy (nonzero) underlying price; the two
failures produce distinct error messages (`No valid ${type} options found`
vs `No valid underlying price found`), and on every other input it returns
a matrix. -/
theorem c4_error_conditions (t : OptionType) (d : List OptionSnapshot) :
    (createSurfaceMatrix t d = Except.error (noOptionsError t) ↔ validOptions t d = []) ∧
      (createSurfaceMatrix t d = Except.error noPriceError ↔
        validOptions t d ≠ [] ∧ ∀ o ∈ validOptions t d, o.underlying_asset.price = 0) ∧
      noOptionsError t ≠ noPriceError ∧
      ((∃ m, createSurfaceMatrix t d = Except.ok m) ↔
        validOptions t d ≠ [] ∧ ∃ o ∈ validOptions t d, o.underlying_asset.price ≠ 0) := by
  have hdist := noOptionsError_ne_noPriceError t
  unfold createSurfaceMatrix
  by_cases h0 : (validOptions t d).length = 0
  · have he : validOptions t d = [] := List.length_eq_zero.mp h0
    rw [if_pos h0]
    refine ⟨by simp [he], ?_, hdist, by simp [he]⟩
    simp only [Except.error.injEq, he, ne_eq, not_true_eq_false, false_and, iff_false]
    exact hdist
  · have hne : validOptions t d ≠ [] := fun hc => h0 (by simp [hc])
    rw [if_neg h0]
    cases hfind : (validOptions t d).find? hasUnderlyingPrice with
    | none =>
      have hall : ∀ o ∈ validOptions t d, o.underlying_asset.price = 0 := by
        intro o ho
        have := List.find?_eq_none.mp hfind o ho
        simpa [hasUnderlyingPrice] using this
      refine ⟨⟨fun hc => ?_, fun hc => absurd hc hne⟩,
        ⟨fun _ => ⟨hne, hall⟩, fun _ => rfl⟩, hdist,
        ⟨fun hc => ?_, fun hc => ?_⟩⟩
      · exact absurd (by injection hc) (Ne.symm hdist)
      · obtain ⟨m, hm⟩ := hc
        exact Except.noConfusion hm
      · obtain ⟨-, o, ho, hp⟩ := hc
        have := List.find?_eq_none.mp hfind o ho
        exact absurd (by simpa [hasUnderlyingPrice] using this) hp
    | some o =>
      have hmem : o ∈ validOptions t d := List.mem_of_find?_eq_some hfind
      have hp : o.underlying_asset.price ≠ 0 := by
        have := List.find?_some hfind
        simpa [hasUnderlyingPrice] using this
      refine ⟨⟨fun hc => Except.noConfusion hc, fun hc => absurd hc hne⟩,
        ⟨fun hc => Except.noConfusion hc, fun hc => ?_⟩, hdist,
        ⟨fun _ => ⟨hne, o, hmem, hp⟩, fun _ => ⟨_, rfl⟩⟩⟩
      obtain ⟨-, hall⟩ := hc
      exact absurd (hall o hmem) hp

/-- Only-call records, used to request puts against (spec Scenario B). -/
def c4Records : List OptionSnapshot :=
  [mkSnapshot .call 100 "2024-06-21" (some 1) 100]

/-- C4, witness: building puts against only-call records produces the
empty-filter error. -/
theorem c4_witness :
    createSurfaceMatrix OptionType.put c4Records =
      Except.error (noOptionsError OptionType.put) :=
  (c4_error_conditions OptionType.put c4Records).1.mpr (by decide)

/-- A record with a negative strike and an unparseable expiration date,
matching the requested side and carrying a price. -/
def c9Record : OptionSnapshot := mkSnapshot .call (-5) "not-a-date" (some 1) 100

/-- The matrix the builder actually produces from `c9Record` alone. -/
def c9Matrix : SurfaceMatrix :=
  { strikes := [-5]
    expirations := ["not-a-date"]
    ivs := [[1]]
    underlyingPrice := 100 }

/-- C9, counterexample.  A record whose strike is negative (not a positive
number) and whose expiration does not parse to a valid date is NOT
excluded: `createSurfaceMatrix` keeps it and succeeds, because the filter
only checks JS truthiness (nonzero strike, nonempty string). -/
theorem c9_counterexample :
    createSurfaceMatrix OptionType.call [c9Record] = Except.ok c9Matrix ∧
      c9Record.details.strike_price < 0 ∧
      parseDateMs c9Record.details.expiration_date = none := by
  exact ⟨by decide, by decide, by decide⟩

/-- C9, amended.  The builder keeps exactly the records whose contract type
matches the requested side, whose strike price is nonzero (truthy — sign,
finiteness and range are not checked) and whose expiration date is a
nonempty string (truthy — it need not parse to a valid date); the strikes
and expirations of a successfully built matrix are exactly those of the
records so kept. -/
theorem c9_filter_truthiness (t : OptionType) (d : List OptionSnapshot) :
    (∀ o, o ∈ validOptions t d ↔
        o ∈ d ∧ o.details.contract_type = t ∧
          o.details.strike_price ≠ 0 ∧ o.details.expiration_date ≠ "") ∧
      ∀ m, createSurfaceMatrix t d = Except.ok m →
        (∀ x, x ∈ m.strikes ↔ ∃ o ∈ validOptions t d, o.details.strike_price = x) ∧
          ∀ s, s ∈ m.expirations ↔ ∃ o ∈ validOptions t d, o.details.expiration_date = s := by
  constructor
  · intro o
    simp [validOptions, List.mem_filter, isValidOption, and_assoc]
  · intro m h
    obtain ⟨-, o, -, rfl⟩ := createSurfaceMatrix_ok_iff.mp h
    exact ⟨fun x => mem_surfaceStrikes t d x, fun s => mem_surfaceExpirations t d s⟩

/-- C9, witness: the amended theorem applied to the single bad record. -/
theorem c9_witness :
    (c9Record ∈ validOptions OptionType.call [c9Record] ↔
        c9Record ∈ [c9Record] ∧ c9Record.details.contract_type = OptionType.call ∧
          c9Record.details.strike_price ≠ 0 ∧ c9Record.details.expiration_date ≠ "") ∧
      ((∀ x, x ∈ c9Matrix.strikes ↔
          ∃ o ∈ validOptions OptionType.call [c9Record], o.details.strike_price = x) ∧
        ∀ s, s ∈ c9Matrix.expirations ↔
          ∃ o ∈ validOptions OptionType.call [c9Record], o.details.expiration_date = s) :=
  ⟨(c9_filter_truthiness OptionType.call [c9Record]).1 c9Record,
    (c9_filter_truthiness OptionType.call [c9Record]).2 c9Matrix (by decide)⟩

section ColorBuckets

attribute [local semireducible] Rat.sub

/-- C6, counterexample.  `getIVColor` brackets with STRICT inequalities: at a
difference of exactly -0.05 it returns mild-cold ("text-blue-400"), not
strong-cold as the claim states, and `colorFor(0.36, 0.30)` (difference
0.06 > 0.05) returns strong-hot ("text-red-600 font-medium"), not mild-hot
as the claim states. -/
theorem c6_counterexample :
    getIVColor (mkRat 25 100) (mkRat 30 100) = "text-blue-400" ∧
      "text-blue-400" ≠ "text-blue-600 font-medium" ∧
      getIVColor (mkRat 36 100) (mkRat 30 100) = "text-red-600 font-medium" ∧
      "text-red-600 font-medium" ≠ "text-red-400" := by
  exact ⟨by decide, by decide, by decide, by decide⟩

/-- C6, amended.  `getIVColor iv baseline` buckets the signed difference
`diff = iv - baseline` with strict thresholds: `diff < -0.05` strong-cold,
`-0.05 ≤ diff < 0` mild-cold, `diff = 0` neutral, `0 < diff ≤ 0.05`
mild-hot, `diff > 0.05` strong-hot; both boundary differences land in the
MILD buckets, `colorFor(0.20, 0.30)` is strong-cold, and
`colorFor(0.36, 0.30)` is strong-hot. -/
theorem c6_color_buckets (iv base : ℚ) :
    (iv - base < -(mkRat 5 100) → getIVColor iv base = "text-blue-600 font-medium") ∧
      (-(mkRat 5 100) ≤ iv - base → iv - base < 0 → getIVColor iv base = "text-blue-400") ∧
      (iv - base = 0 → getIVColor iv base = "text-gray-600") ∧
      (0 < iv - base → iv - base ≤ mkRat 5 100 → getIVColor iv base = "text-red-400") ∧
      (mkRat 5 100 < iv - base → getIVColor iv base = "text-red-600 font-medium") := by
  have hA : (0 : ℚ) < mkRat 5 100 := by decide
  have e : getIVColor iv base =
      (if iv - base < -(mkRat 5 100) then "text-blue-600 font-medium"
       else if iv - base < 0 then "text-blue-400"
       else if iv - base > mkRat 5 100 then "text-red-600 font-medium"
       else if iv - base > 0 then "text-red-400"
       else "text-gray-600") := rfl
  refine ⟨fun h => ?_, fun h1 h2 => ?_, fun h => ?_, fun h1 h2 => ?_, fun h => ?_⟩ <;> rw [e]
  · rw [if_pos h]
  · rw [if_neg (by linarith), if_pos h2]
  · rw [if_neg (by linarith), if_neg (by linarith), if_neg (by linarith),
      if_neg (by linarith)]
  · rw [if_neg (by linarith), if_neg (by linarith), if_neg (by linarith),
      if_pos (by linarith)]
  · rw [if_neg (by linarith), if_neg (by linarith), if_pos (by linarith)]

/-- C6, witness: the amended theorem at `colorFor(0.20, 0.30)` (strong-cold)
and `colorFor(0.36, 0.30)` (strong-hot). -/
theorem c6_witness :
    getIVColor (mkRat 20 100) (mkRat 30 100) = "text-blue-600 font-medium" ∧
      getIVColor (mkRat 36 100) (mkRat 30 100) = "text-red-600 font-medium" :=
  ⟨(c6_color_buckets (mkRat 20 100) (mkRat 30 100)).1 (by decide),
    (c6_color_buckets (mkRat 36 100) (mkRat 30 100)).2.2.2.2 (by decide)⟩

end ColorBuckets

/-- C7.  Sorting is a pure derivation: `sortedData` reads its argument and
builds a fresh matrix (in this value-level embedding no mutation is even
expressible, matching the source, which builds a new object literal from
`useMemo` without writing to `surfaceData`), and the output's
`underlyingPrice` is the input's `underlyingPrice`, passed through
unchanged. -/
theorem c7_underlying_price_passthrough (m : SurfaceMatrix) (cfg : SortConfig) :
    (sortedData m cfg).underlyingPrice = m.underlyingPrice := rfl

/-- When the requested IV column index is out of range (negative or at least
the number of expirations), every cell lookup is `undefined`, so the
comparator relation holds between all indices (every comparison normalizes
to equal). -/
theorem ivIdxLe_of_col_out_of_range (m : SurfaceMatrix) (dir : SortDirection)
    (k : ℤ) (hWF : m.WellFormed)
    (hk : k < 0 ∨ (m.expirations.length : ℤ) ≤ k) :
    ∀ a b, ivIdxLe m dir k a b := by
  have hcell : ∀ a, ivCell? m a k = none := by
    intro a
    unfold ivCell?
    cases hrow : m.ivs[a]? with
    | none => rfl
    | some row =>
      obtain ⟨hlt, hrr⟩ := List.getElem?_eq_some.mp hrow
      have hr : row ∈ m.ivs := hrr ▸ List.getElem_mem hlt
      have hlen : row.length = m.expirations.length := hWF.2 row hr
      show (if 0 ≤ k then row[k.toNat]? else none) = none
      rcases hk with hneg | hge
      · rw [if_neg (not_le.mpr hneg)]
      · have h0k : 0 ≤ k := le_trans (Int.ofNat_nonneg _) hge
        rw [if_pos h0k]
        apply List.getElem?_eq_none
        omega
  intro a b
  unfold ivIdxLe
  rw [hcell a, hcell b]

/-- The matrix of spec Scenario D: strikes 90/100/110, one expiration
column with IVs 0.40/0.20/0.30. -/
def threeStrikeMatrix : SurfaceMatrix :=
  { strikes := [90, 100, 110]
    expirations := ["2024-06-21"]
    ivs := [[mkRat 40 100], [mkRat 20 100], [mkRat 30 100]]
    underlyingPrice := 100 }

/-- An IV sort request naming column 5 of a one-column matrix. -/
def c8Config : SortConfig :=
  { key := SortKey.iv, direction := SortDirection.asc, expirationIndex := some 5 }

/-- C8, counterexample.  A sort request by IV at the out-of-range column
index 5 is NOT rejected and no `InvalidSortTarget` (or any other) error is
reported — no error channel exists in the sort computation, whose result
type is a plain matrix; the computation runs the sort with an
all-comparisons-equal comparator and returns the input matrix unchanged. -/
theorem c8_counterexample :
    sortedData threeStrikeMatrix c8Config = threeStrikeMatrix := by decide

/-- C8, amended.  A sort request with key `iv` whose column index is outside
the expiration range (negative or ≥ `expirations.length`) is not rejected
and produces no error: every cell lookup at that column is `undefined`, the
comparator result `NaN` is normalized to "equal", and the stable sort
leaves the order unchanged, so the computation returns the input matrix
itself — in particular the matrix is never reordered by an out-of-range
column. -/
theorem c8_out_of_range_column_unchanged (m : SurfaceMatrix) (cfg : SortConfig)
    (k : ℤ) (hWF : m.WellFormed) (hkey : cfg.key = SortKey.iv)
    (hidx : cfg.expirationIndex = some k)
    (hrange : k < 0 ∨ (m.expirations.length : ℤ) ≤ k) :
    sortedData m cfg = m := by
  refine sortedData_eq_self_of_identity m cfg hWF ?_ ?_
  · simp only [sortedStrikeIndices, sortedIndexPair, hkey, hidx]
    simp only [reduceCtorEq, if_false, if_true, reduceIte]
    exact insertionSort_eq_self _ _
      (fun a _ b _ => ivIdxLe_of_col_out_of_range m cfg.direction k hWF hrange a b)
  · simp [sortedExpirationIndices, sortedIndexPair, hkey, hidx]

/-- C8, witness: the amended theorem at the Scenario-D matrix and column 5. -/
theorem c8_witness :
    sortedData threeStrikeMatrix
        { key := SortKey.iv, direction := SortDirection.asc, expirationIndex := some 5 } =
      threeStrikeMatrix :=
  c8_out_of_range_column_unchanged threeStrikeMatrix
    { key := SortKey.iv, direction := SortDirection.asc, expirationIndex := some 5 }
    5 (by decide) rfl rfl (by decide)

/-- C10.  A sort configuration with key `iv` but no numeric
`expirationIndex` fails the `typeof sortConfig.expirationIndex === 'number'`
guard, so no index array is sorted and the computation returns the input
matrix unchanged (same strikes, same expirations, same grid). -/
theorem c10_missing_index_identity (m : SurfaceMatrix) (cfg : SortConfig)
    (hWF : m.WellFormed) (hkey : cfg.key = SortKey.iv)
    (hidx : cfg.expirationIndex = none) :
    sortedData m cfg = m := by
  refine sortedData_eq_self_of_identity m cfg hWF ?_ ?_
  · simp [sortedStrikeIndices, sortedIndexPair, hkey, hidx]
  · simp [sortedExpirationIndices, sortedIndexPair, hkey, hidx]

/-- C10, witness: the theorem at the Scenario-D matrix with key `iv` and a
missing column index. -/
theorem c10_witness :
    sortedData threeStrikeMatrix
        { key := SortKey.iv, direction := SortDirection.asc, expirationIndex := none } =
      threeStrikeMatrix :=
  c10_missing_index_identity threeStrikeMatrix
    { key := SortKey.iv, direction := SortDirection.asc, expirationIndex := none }
    (by decide) rfl rfl

/-- C5.  For every matrix and sort configuration: the strike-index and
expiration-index lists of `sortedData` are permutations of the identity
ranges; the output strikes and expirations are those permutations applied
to the input axes; every output cell satisfies
`newIvs[i][j] = oldIvs[p[i]][q[j]]`; and consequently every input
(strike, expiration) pair reappears in the output carrying exactly the same
IV value — sorting permutes positions, never values. -/
theorem c5_sort_permutes_not_values (m : SurfaceMatrix) (cfg : SortConfig) :
    (sortedStrikeIndices m cfg).Perm (List.range m.strikes.length) ∧
      (sortedExpirationIndices m cfg).Perm (List.range m.expirations.length) ∧
      (sortedData m cfg).strikes =
        (sortedStrikeIndices m cfg).map (fun i => m.strikes.getD i 0) ∧
      (sortedData m cfg).expirations =
        (sortedExpirationIndices m cfg).map (fun j => m.expirations.getD j "") ∧
      (∀ i j, i < (sortedStrikeIndices m cfg).length →
        j < (sortedExpirationIndices m cfg).length →
        ((sortedData m cfg).ivs.getD i []).getD j 0 =
          (m.ivs.getD ((sortedStrikeIndices m cfg).getD i 0) []).getD
            ((sortedExpirationIndices m cfg).getD j 0) 0) ∧
      ∀ a b, a < m.strikes.length → b < m.expirations.length →
        ∃ i j, i < (sortedData m cfg).strikes.length ∧
          j < (sortedData m cfg).expirations.length ∧
          (sortedData m cfg).strikes.getD i 0 = m.strikes.getD a 0 ∧
          (sortedData m cfg).expirations.getD j "" = m.expirations.getD b "" ∧
          ((sortedData m cfg).ivs.getD i []).getD j 0 =
            (m.ivs.getD a []).getD b 0 := by
  have hcell : ∀ i j, i < (sortedStrikeIndices m cfg).length →
      j < (sortedExpirationIndices m cfg).length →
      ((sortedData m cfg).ivs.getD i []).getD j 0 =
        (m.ivs.getD ((sortedStrikeIndices m cfg).getD i 0) []).getD
          ((sortedExpirationIndices m cfg).getD j 0) 0 := by
    intro i j hi hj
    show (((sortedStrikeIndices m cfg).map (fun a =>
        (sortedExpirationIndices m cfg).map
          (fun b => (m.ivs.getD a []).getD b 0))).getD i []).getD j 0 = _
    rw [getD_map (sortedStrikeIndices m cfg) _ [] 0 hi,
      getD_map (sortedExpirationIndices m cfg) _ 0 0 hj]
  refine ⟨sortedStrikeIndices_perm m cfg, sortedExpirationIndices_perm m cfg,
    rfl, rfl, hcell, ?_⟩
  intro a b ha hb
  have hamem : a ∈ sortedStrikeIndices m cfg :=
    (sortedStrikeIndices_perm m cfg).mem_iff.mpr (List.mem_range.mpr ha)
  have hbmem : b ∈ sortedExpirationIndices m cfg :=
    (sortedExpirationIndices_perm m cfg).mem_iff.mpr (List.mem_range.mpr hb)
  obtain ⟨i, hi, hia⟩ := List.mem_iff_getElem.mp hamem
  obtain ⟨j, hj, hjb⟩ := List.mem_iff_getElem.mp hbmem
  have hpi : (sortedStrikeIndices m cfg).getD i 0 = a := by
    rw [List.getD_eq_getElem _ 0 hi, hia]
  have hqj : (sortedExpirationIndices m cfg).getD j 0 = b := by
    rw [List.getD_eq_getElem _ 0 hj, hjb]
  refine ⟨i, j, ?_, ?_, ?_, ?_, ?_⟩
  · show i < ((sortedStrikeIndices m cfg).map (fun a => m.strikes.getD a 0)).length
    simpa using hi
  · show j < ((sortedExpirationIndices m cfg).map (fun b => m.expirations.getD b "")).length
    simpa using hj
  · show ((sortedStrikeIndices m cfg).map (fun a => m.strikes.getD a 0)).getD i 0 = _
    rw [getD_map (sortedStrikeIndices m cfg) _ 0 0 hi, hpi]
  · show ((sortedExpirationIndices m cfg).map
        (fun b => m.expirations.getD b "")).getD j "" = _
    rw [getD_map (sortedExpirationIndices m cfg) _ "" 0 hj, hqj]
  · rw [hcell i j hi hj, hpi, hqj]

/-- A strikes-descending sort request, giving a nontrivial permutation. -/
def c5Config : SortConfig :=
  { key := SortKey.strikes, direction := SortDirection.desc, expirationIndex := none }

/-- C5, witness: the theorem at the Scenario-D matrix under a
strikes-descending sort, instantiated at cell (0, 0) and input pair (0, 0). -/
theorem c5_witness :
    (((sortedData threeStrikeMatrix c5Config).ivs.getD 0 []).getD 0 0 =
      (threeStrikeMatrix.ivs.getD
          ((sortedStrikeIndices threeStrikeMatrix c5Config).getD 0 0) []).getD
        ((sortedExpirationIndices threeStrikeMatrix c5Config).getD 0 0) 0) ∧
    ∃ i j, i < (sortedData threeStrikeMatrix c5Config).strikes.length ∧
      j < (sortedData threeStrikeMatrix c5Config).expirations.length ∧
      (sortedData threeStrikeMatrix c5Config).strikes.getD i 0 =
        threeStrikeMatrix.strikes.getD 0 0 ∧
      (sortedData threeStrikeMatrix c5Config).expirations.getD j "" =
        threeStrikeMatrix.expirations.getD 0 "" ∧
      ((sortedData threeStrikeMatrix c5Config).ivs.getD i []).getD j 0 =
        (threeStrikeMatrix.ivs.getD 0 []).getD 0 0 :=
  ⟨(c5_sort_permutes_not_values threeStrikeMatrix c5Config).2.2.2.2.1 0 0
      (by decide) (by decide),
    (c5_sort_permutes_not_values threeStrikeMatrix c5Config).2.2.2.2.2 0 0
      (by decide) (by decide)⟩
